import Mathlib

/-!
Shallow embedding of the multi-writer chat frontend
(`src/frontend/src/components/ai-elements/prompt-input/PromptInput.vue`):
the conversation log of `ChatMessage` turns, the per-model projection
(`getHistoryForModelDisplay`), the fan-out dispatcher (`sendPrompt`'s
synchronous phase), the per-exchange stream consumer (the `while`/`for`
loops over `data: ` lines), and the pure model-id derivations
(`getProvider`, `getDisplayName`).

JavaScript strings are modelled as Lean `String`, with the primitive
operations (`split`, `slice`, `startsWith`, `trim`, number printing)
re-implemented structurally over `String.data` so that every definition
evaluates inside the kernel.  JavaScript truthiness of an optional string
field (`if (msg.model)`) is modelled explicitly: `none` and `some ""` are
both falsy.
-/

namespace MultiWriter

/-! ## String primitives (JS semantics, kernel-computable) -/

/-- Splitting on a single separator character, JS `String.prototype.split`
semantics: `""` splits to `[""]`, separators at the ends produce empty
fields. -/
def splitCharAux (c : Char) : List Char → List Char → List (List Char)
  | [], acc => [acc.reverse]
  | x :: xs, acc =>
    if x = c then acc.reverse :: splitCharAux c xs []
    else splitCharAux c xs (x :: acc)

/-- JS `s.split(c)` for a one-character separator. -/
def strSplitOnChar (c : Char) (s : String) : List String :=
  (splitCharAux c s.data []).map (fun l => String.mk l)

/-- JS `s.startsWith(p)`. -/
def strStartsWith (s p : String) : Bool :=
  p.data.isPrefixOf s.data

/-- JS `s.slice(n)`: drop the first `n` characters. -/
def strDrop (s : String) (n : Nat) : String :=
  String.mk (s.data.drop n)

/-- String concatenation over the underlying character lists. -/
def strConcat (a b : String) : String :=
  String.mk (a.data ++ b.data)

/-- The whitespace characters relevant to JS `trim` for the inputs this
program sees (ASCII subset). -/
def isJsWs (c : Char) : Bool :=
  c = (' ') || c = ('\t') || c = ('\n') || c = ('\r')

/-- JS `s.trim()`. -/
def strTrim (s : String) : String :=
  String.mk (((s.data.dropWhile isJsWs).reverse.dropWhile isJsWs).reverse)

/-- JS `a || b` for strings: the empty string is falsy. -/
def jsOrStr (a b : String) : String :=
  if a = ("") then b else a

/-- JS truthiness of a `string | undefined` value: `undefined` and `""` are
falsy. -/
def jsTruthyStr : Option String → Bool
  | none => false
  | some s => s ≠ ("")

/-! ## Decimal printing of naturals (JS `Number.prototype.toString` on the
integral clock values used for ids) -/

/-- Digit character for a value below 10. -/
def natDigitChar (d : Nat) : Char :=
  if d = 0 then ('0') else if d = 1 then ('1') else if d = 2 then ('2')
  else if d = 3 then ('3') else if d = 4 then ('4') else if d = 5 then ('5')
  else if d = 6 then ('6') else if d = 7 then ('7') else if d = 8 then ('8')
  else if d = 9 then ('9') else ('*')

/-- Fuel-driven digit accumulator (structural recursion, so the kernel can
evaluate it). -/
def natToStringAux : Nat → Nat → List Char → List Char
  | 0, _, acc => acc
  | fuel + 1, n, acc =>
    let acc' := natDigitChar (n % 10) :: acc
    if n / 10 = 0 then acc' else natToStringAux fuel (n / 10) acc'

/-- Decimal representation of a natural number, as produced by JS
`Date.now().toString()` and template-literal interpolation. -/
def natToString (n : Nat) : String :=
  String.mk (natToStringAux (n + 1) n [])

/-- The placeholder id `` `${Date.now()}-${idx}` `` built for the
assistant turn at position `idx` of a dispatch whose second clock reading
was `t`. -/
def asstId (t idx : Nat) : String :=
  strConcat (natToString t) (strConcat ("-") (natToString idx))

/-! ## Data model: `ChatMessage` (the `Turn` of the spec) -/

/-- Message role, `'user' | 'assistant'` in the source. -/
inductive Role where
  | user
  | assistant
deriving DecidableEq, Repr

/-- The `ChatMessage` interface of `PromptInput.vue`.  Optional fields are
`Option`s; JS objects created without a key carry the default. -/
structure ChatMessage where
  id : String
  role : Role
  content : String
  model : Option String := none
  targetModels : Option (List String) := none
  loading : Bool := false
  error : Option String := none
deriving DecidableEq, Repr

/-! ## Per-model projection -/

/-- The selection predicate inside `getHistoryForModelDisplay`:
assistant turns match on `msg.model === modelId`; user turns consult
`msg.model` first (JS truthiness: a set, non-empty model wins), then
`msg.targetModels`, and default to `true` when neither is set. -/
def displayMatch (modelId : String) (msg : ChatMessage) : Bool :=
  match msg.role with
  | .assistant => msg.model == some modelId
  | .user =>
    if jsTruthyStr msg.model then msg.model == some modelId
    else
      match msg.targetModels with
      | some ts => ts.contains modelId
      | none => true

/-- The projection `getHistoryForModelDisplay(modelId)`: the filtered view of the log used
to render one model's panel. -/
def getHistoryForModelDisplay (messages : List ChatMessage) (modelId : String) :
    List ChatMessage :=
  messages.filter (displayMatch modelId)

/-- The selection predicate of the history filter inside `sendPrompt`
(`messages.value.filter(...)` before the upstream request): identical shape
to `displayMatch`, except the in-flight placeholder itself (matched by id)
is excluded, and comparisons refer to the placeholder's `model` field. -/
def historyMatch (target : ChatMessage) (m : ChatMessage) : Bool :=
  if m.id == target.id then false
  else
    match m.role with
    | .assistant => m.model == target.model
    | .user =>
      if jsTruthyStr m.model then m.model == target.model
      else
        match m.targetModels with
        | some ts =>
          match target.model with
          | some tm => ts.contains tm
          | none => false
        | none => true

/-- The upstream history sent with a new request: the filtered turns
projected to `{ role, content }` pairs. -/
def buildHistory (messages : List ChatMessage) (target : ChatMessage) :
    List (Role × String) :=
  (messages.filter (historyMatch target)).map (fun m => (m.role, m.content))

/-- Modelled from the spec: the selection rule exactly as §4.2 words it —
assistant turns match iff `turn.model == modelId`; user turns match iff
the model field equals `modelId`, or `targetModels` contains `modelId`, or
neither field is set.  Used to compare the code's filters against the
spec's wording. -/
def specMatch (modelId : String) (m : ChatMessage) : Bool :=
  match m.role with
  | .assistant => m.model == some modelId
  | .user =>
    m.model == some modelId
      || (match m.targetModels with
          | some ts => ts.contains modelId
          | none => false)
      || (m.model == none && m.targetModels == none)

/-- Well-formedness of a turn, as guaranteed by every creation site in
`sendPrompt`: a user turn either has no model, or a JS-truthy (non-empty)
model with `targetModels` unset, or the degenerate empty-string model that
the global path stores together with a `targetModels` snapshot. -/
def wfTurn (m : ChatMessage) : Bool :=
  match m.role with
  | .assistant => true
  | .user =>
    match m.model with
    | none => true
    | some s => if s = ("") then m.targetModels.isSome else m.targetModels == none

/-! ## Application state and the fan-out dispatcher -/

/-- Lookup in a string-keyed record (`Record<string, α>` in the source),
with a default for absent keys. -/
def lookupD {α : Type} (l : List (String × α)) (k : String) (d : α) : α :=
  match l.find? (fun kv => kv.1 == k) with
  | some kv => kv.2
  | none => d

/-- Assignment `record[k] = v`: overwrite the existing binding or add a new
one. -/
def setKV {α : Type} (l : List (String × α)) (k : String) (v : α) :
    List (String × α) :=
  if l.any (fun kv => kv.1 == k) then
    l.map (fun kv => if kv.1 == k then (k, v) else kv)
  else l ++ [(k, v)]

/-- The reactive state of the component that the core logic reads and
writes: the global prompt, the per-model scratch prompts, the selection,
the conversation log, and the per-model busy flags (`isModelLoading`). -/
structure AppState where
  prompt : String := ("")
  modelPrompts : List (String × String) := []
  selectedModels : List String := []
  messages : List ChatMessage := []
  isModelLoading : List (String × Bool) := []
deriving DecidableEq, Repr

/-- Read of `isModelLoading[m]` (absent keys are falsy in JS). -/
def getLoadingFlag (st : AppState) (m : String) : Bool :=
  lookupD st.isModelLoading m false

/-- The handler `toggleModel(modelId)`: remove the id from the selection when present,
append it otherwise.  Both branches assign a fresh array; `messages` is
untouched. -/
def toggleModel (st : AppState) (modelId : String) : AppState :=
  let current := st.selectedModels
  if current.contains modelId then
    { st with selectedModels := current.filter (fun m => m ≠ modelId) }
  else
    { st with selectedModels := current ++ [modelId] }

/-- The flag `isGlobalFixed` of `sendPrompt`: the submission is global when the
argument is JS-falsy (`undefined` or, degenerately, `""`). -/
def isGlobalOf (tid : Option String) : Bool :=
  ! jsTruthyStr tid

/-- The prompt text the dispatch reads: the global prompt, or the target
model's scratch reply text. -/
def currentPromptOf (st : AppState) (tid : Option String) : String :=
  if isGlobalOf tid then st.prompt
  else lookupD st.modelPrompts (tid.getD ("")) ("")

/-- The list `activeModels`: the whole selection for a global submit, the single
resolved target otherwise. -/
def activeModelsOf (st : AppState) (tid : Option String) : List String :=
  if isGlobalOf tid then st.selectedModels else [tid.getD ("")]

/-- The user turn `sendPrompt` pushes (line 156): `model` is the resolved
target id, `targetModels` is a snapshot copy of the selection for a global
submit and unset otherwise. -/
def userMessageOf (st : AppState) (tid : Option String) (now1 : Nat) :
    ChatMessage :=
  { id := natToString now1
    role := .user
    content := currentPromptOf st tid
    model := tid
    targetModels := if isGlobalOf tid then some st.selectedModels else none }

/-- The assistant placeholders `sendPrompt` pushes (line 172): one per
active model, `content = ""`, `loading = true`. -/
def placeholdersOf (st : AppState) (tid : Option String) (now2 : Nat) :
    List ChatMessage :=
  (activeModelsOf st tid).enum.map (fun p =>
    { id := asstId now2 p.1
      role := .assistant
      content := ("")
      model := some p.2
      loading := true })

/-- The state at the end of `sendPrompt`'s synchronous phase: user turn
pushed, originating input cleared, every active model marked busy, and the
placeholders pushed. -/
def dispatchedState (st : AppState) (tid : Option String) (now1 now2 : Nat) :
    AppState :=
  { st with
    messages :=
      st.messages ++ [userMessageOf st tid now1] ++ placeholdersOf st tid now2
    prompt := if isGlobalOf tid then ("") else st.prompt
    modelPrompts :=
      if isGlobalOf tid then st.modelPrompts
      else setKV st.modelPrompts (tid.getD ("")) ("")
    isModelLoading :=
      (activeModelsOf st tid).foldl
        (fun acc m => if m ≠ ("") then setKV acc m true else acc)
        st.isModelLoading }

/-- The synchronous phase of `sendPrompt(targetModelId?)`, up to and
including pushing the assistant placeholders — everything that happens
before the first `await`.  `targetModelId = none` is the global submit;
`now1` and `now2` are the two `Date.now()` readings (line 157 for the user
turn id, line 173 for the placeholder ids).  Returns `none` when the
guard clauses reject the dispatch, otherwise the updated state together
with the freshly created placeholder turns (the ones the streaming
exchanges are spawned for). -/
def sendPromptSync (st : AppState) (targetModelId : Option String)
    (now1 now2 : Nat) : Option (AppState × List ChatMessage) :=
  if strTrim (currentPromptOf st targetModelId) = ("") then none
  else if (activeModelsOf st targetModelId).isEmpty then none
  else
    some (dispatchedState st targetModelId now1 now2,
          placeholdersOf st targetModelId now2)

/-- Inversion of a successful dispatch: the guards held and the outputs
are the named components. -/
lemma sendPromptSync_some {st : AppState} {tid : Option String}
    {n1 n2 : Nat} {st' : AppState} {as : List ChatMessage}
    (h : sendPromptSync st tid n1 n2 = some (st', as)) :
    strTrim (currentPromptOf st tid) ≠ ("") ∧
    (activeModelsOf st tid).isEmpty = false ∧
    st' = dispatchedState st tid n1 n2 ∧
    as = placeholdersOf st tid n2 := by
  unfold sendPromptSync at h
  split at h
  · exact Option.noConfusion h
  · split at h
    · exact Option.noConfusion h
    · rename_i hp ha
      rw [Option.some.injEq, Prod.mk.injEq] at h
      exact ⟨hp, by simpa using ha, h.1.symm, h.2.symm⟩

/-! ## JSON values and a kernel-computable parser (the model of the
platform's `JSON.parse` applied to one `data: ` payload) -/

/-- JSON value trees.  Numbers keep their raw text since the program never
reads a numeric payload field. -/
inductive Json where
  | null
  | bool (b : Bool)
  | num (raw : String)
  | str (s : String)
  | arr (elems : List Json)
  | obj (fields : List (String × Json))

/-- Characters skipped between JSON tokens. -/
def jsonWs (c : Char) : Bool :=
  c = (' ') || c = ('\t') || c = ('\n') || c = ('\r')

/-- Skip insignificant whitespace. -/
def skipWs (cs : List Char) : List Char :=
  cs.dropWhile jsonWs

/-- Parse the remainder of a JSON string literal (after the opening quote),
handling the single-character escapes.  `\u` escapes are not produced by
the upstream wire format this program consumes; they make the parse fail,
which the caller treats like any other malformed payload. -/
def parseStringLit : List Char → List Char → Option (String × List Char)
  | [], _ => none
  | ('"') :: rest, acc => some (String.mk acc.reverse, rest)
  | ('\\') :: e :: rest, acc =>
    if e = ('"') then parseStringLit rest (('"') :: acc)
    else if e = ('\\') then parseStringLit rest (('\\') :: acc)
    else if e = ('/') then parseStringLit rest (('/') :: acc)
    else if e = ('n') then parseStringLit rest (('\n') :: acc)
    else if e = ('t') then parseStringLit rest (('\t') :: acc)
    else if e = ('r') then parseStringLit rest (('\r') :: acc)
    else if e = ('b') then parseStringLit rest (('\x08') :: acc)
    else if e = ('f') then parseStringLit rest (('\x0c') :: acc)
    else none
  | c :: rest, acc => parseStringLit rest (c :: acc)

/-- Is `c` a character that may occur in a JSON number token? -/
def isNumChar (c : Char) : Bool :=
  c.isDigit || c = ('-') || c = ('+') || c = ('.') || c = ('e') || c = ('E')

/-- Parse a JSON number token, keeping its raw text. -/
def parseNumber (cs : List Char) : Option (Json × List Char) :=
  let tok := cs.takeWhile isNumChar
  if tok.isEmpty then none else some (.num (String.mk tok), cs.drop tok.length)

/-- Parser mode: a value, the tail of an array after `[`, or the tail of an
object after `\x7b` — one mode per loop of a recursive-descent parser,
folded into a single fuel-indexed function so the kernel can reduce it. -/
inductive PMode where
  | value
  | arrTail (acc : List Json)
  | objTail (acc : List (String × Json))

/-- The recursive-descent JSON parser, structural in its fuel. -/
def parseJ : Nat → PMode → List Char → Option (Json × List Char)
  | 0, _, _ => none
  | fuel + 1, .value, cs =>
    match skipWs cs with
    | [] => none
    | ('\x7b') :: rest =>
      match skipWs rest with
      | ('\x7d') :: rest2 => some (.obj [], rest2)
      | _ => parseJ fuel (.objTail []) rest
    | ('[') :: rest =>
      match skipWs rest with
      | (']') :: rest2 => some (.arr [], rest2)
      | _ => parseJ fuel (.arrTail []) rest
    | ('"') :: rest =>
      match parseStringLit rest [] with
      | some (s, r) => some (.str s, r)
      | none => none
    | ('t') :: ('r') :: ('u') :: ('e') :: rest => some (.bool true, rest)
    | ('f') :: ('a') :: ('l') :: ('s') :: ('e') :: rest => some (.bool false, rest)
    | ('n') :: ('u') :: ('l') :: ('l') :: rest => some (.null, rest)
    | c :: rest =>
      if c = ('-') || c.isDigit then parseNumber (c :: rest) else none
  | fuel + 1, .arrTail acc, cs =>
    match parseJ fuel .value cs with
    | none => none
    | some (v, rest) =>
      match skipWs rest with
      | (',') :: rest2 => parseJ fuel (.arrTail (acc ++ [v])) rest2
      | (']') :: rest2 => some (.arr (acc ++ [v]), rest2)
      | _ => none
  | fuel + 1, .objTail acc, cs =>
    match skipWs cs with
    | ('"') :: rest =>
      match parseStringLit rest [] with
      | none => none
      | some (k, rest2) =>
        match skipWs rest2 with
        | (':') :: rest3 =>
          match parseJ fuel .value rest3 with
          | none => none
          | some (v, rest4) =>
            match skipWs rest4 with
            | (',') :: rest5 => parseJ fuel (.objTail (acc ++ [(k, v)])) rest5
            | ('\x7d') :: rest5 => some (.obj (acc ++ [(k, v)]), rest5)
            | _ => none
        | _ => none
    | _ => none

/-- The model of `JSON.parse(s)`: parse a full value and require only whitespace after
it; `none` models a thrown `SyntaxError`. -/
def parseJson (s : String) : Option Json :=
  match parseJ (2 * s.data.length + 8) .value s.data with
  | some (j, rest) => if (skipWs rest).isEmpty then some j else none
  | none => none

/-- Object member access.  JS `JSON.parse` keeps the last binding of a
duplicated key, hence the reversed search. -/
def jGet : Json → String → Option Json
  | .obj fields, k => (fields.reverse.find? (fun kv => kv.1 == k)).map (fun kv => kv.2)
  | _, _ => none

/-- The composition `JSON.parse(data)` followed by `parsed.choices[0]?.delta?.content`:
the incremental fragment of one payload.  Every non-string outcome —
parse failure (the `catch`), a missing or non-array `choices`, an empty
`choices`, a missing `delta` or `content` — yields `none`; in the source
all of those outcomes alike cause no mutation and move on to the next
line. -/
def extractDelta (data : String) : Option String :=
  match parseJson data with
  | none => none
  | some j =>
    match jGet j ("choices") with
    | some (.arr (c0 :: _)) =>
      match (jGet c0 ("delta")).bind (fun d => jGet d ("content")) with
      | some (.str s) => some s
      | _ => none
    | _ => none

/-! ## The stream consumer loops -/

/-- The inner `for (const line of lines)` loop of one chunk: collect, in
order, the non-empty deltas the loop applies.  A line whose payload is
exactly `[DONE]` executes `break`, discarding the remaining lines of
this chunk only. -/
def linesDeltas : List String → List String
  | [] => []
  | line :: rest =>
    if strStartsWith line ("data: ") then
      let data := strDrop line 6
      if data = ("[DONE]") then []
      else
        match extractDelta data with
        | some d => if d ≠ ("") then d :: linesDeltas rest else linesDeltas rest
        | none => linesDeltas rest
    else linesDeltas rest

/-- One decoded chunk: split on newlines, then run the line loop. -/
def chunkDeltas (chunk : String) : List String :=
  linesDeltas (strSplitOnChar ('\n') chunk)

/-- The outer `while (true)` read loop over the transport's chunk sequence:
every chunk is processed until the transport reports `done`. -/
def streamDeltas : List String → List String
  | [] => []
  | c :: cs => chunkDeltas c ++ streamDeltas cs

/-- The idiom `messages.value.findIndex(m => m.id === msgId)` followed by an in-place
mutation of that element: rewrite the first turn carrying the id, leave
everything else (and a log without the id) unchanged. -/
def modifyById (msgId : String) (f : ChatMessage → ChatMessage) :
    List ChatMessage → List ChatMessage
  | [] => []
  | m :: rest =>
    if m.id == msgId then f m :: rest else m :: modifyById msgId f rest

/-- Applying one delta: `m.content += delta; m.loading = false`. -/
def applyDelta (log : List ChatMessage) (msgId : String) (d : String) :
    List ChatMessage :=
  modifyById msgId (fun m => { m with content := strConcat m.content d, loading := false }) log

/-- Applying a whole stream of deltas in order. -/
def applyDeltas (log : List ChatMessage) (msgId : String) (ds : List String) :
    List ChatMessage :=
  ds.foldl (fun l d => applyDelta l msgId d) log

/-- The `catch` handler: `m.error = message; m.loading = false`. -/
def applyError (log : List ChatMessage) (msgId : String) (e : String) :
    List ChatMessage :=
  modifyById msgId (fun m => { m with error := some e, loading := false }) log

/-- The `finally` handler: force `loading = false` on the exchange's turn,
then recompute the model's aggregate busy flag from the updated log
(guarded by JS truthiness of `msg.model`). -/
def finalizeExchange (st : AppState) (msgId : String) (model : Option String) :
    AppState :=
  let msgs := modifyById msgId (fun m => { m with loading := false }) st.messages
  if jsTruthyStr model then
    { st with
      messages := msgs
      isModelLoading :=
        setKV st.isModelLoading (model.getD (""))
          (msgs.any (fun m => m.model == model && m.loading)) }
  else { st with messages := msgs }

/-- How one exchange's transport behaves: an immediate failure (non-ok
status or missing body reader, both thrown before any read), a complete
stream of chunks followed by end-of-stream, or some chunks followed by a
read/decode exception. -/
inductive ExchangeOutcome where
  | httpError (e : String)
  | stream (chunks : List String)
  | streamThen (chunks : List String) (e : String)

/-- One whole exchange for placeholder `msg`: the `try` body (or the
`catch` handler) followed unconditionally by the `finally` handler. -/
def runExchange (st : AppState) (msg : ChatMessage) (oc : ExchangeOutcome) :
    AppState :=
  let st' :=
    match oc with
    | .httpError e => { st with messages := applyError st.messages msg.id e }
    | .stream chunks =>
      { st with messages := applyDeltas st.messages msg.id (streamDeltas chunks) }
    | .streamThen chunks e =>
      { st with
        messages :=
          applyError (applyDeltas st.messages msg.id (streamDeltas chunks)) msg.id e }
  finalizeExchange st' msg.id msg.model

/-! ## Pure model-id derivations -/

/-- The derivation `getProvider(modelId)`: first path segment (falling back to the whole
id via `||` when it is empty), special-casing unprefixed `gpt-` and
`claude-` names, and stripping a trailing `:variant` tag. -/
def getProvider (modelId : String) : String :=
  let base := jsOrStr ((strSplitOnChar ('/') modelId).headD ("")) modelId
  if strStartsWith base ("gpt-") then ("openai")
  else if strStartsWith base ("claude-") then ("anthropic")
  else jsOrStr ((strSplitOnChar (':') base).headD ("")) base

/-- The derivation `getDisplayName(modelId)`: the last path segment when the id contains a
slash, the id itself otherwise. -/
def getDisplayName (modelId : String) : String :=
  let parts := strSplitOnChar ('/') modelId
  if parts.length > 1 then jsOrStr (parts.getLastD ("")) modelId
  else modelId

/-! ## Concrete fixtures for the closed scenario claims -/

/-- A user turn of the C7 scenario log. -/
def c7User : ChatMessage :=
  { id := ("1"), role := .user, content := ("Hi"), targetModels := some [("m")] }

/-- The in-flight placeholder of the C7 scenario. -/
def c7Placeholder : ChatMessage :=
  { id := ("1-0"), role := .assistant, content := (""), model := some ("m"),
    loading := true }

/-- The component state right after the C7 dispatch. -/
def c7State : AppState :=
  { prompt := (""), modelPrompts := [], selectedModels := [("m")],
    messages := [c7User, c7Placeholder], isModelLoading := [(("m"), true)] }

/-- The three chunks the C7 transport yields before closing. -/
def c7Chunks : List String :=
  [("data: \x7b\"choices\":[\x7b\"delta\":\x7b\"content\":\"Hel\"\x7d\x7d]\x7d\n"),
   ("data: \x7b\"choices\":[\x7b\"delta\":\x7b\"content\":\"lo\"\x7d\x7d]\x7d\n"),
   ("data: [DONE]\n")]

/-- The state after the C7 exchange runs to completion. -/
def c7Final : AppState :=
  runExchange c7State c7Placeholder (.stream c7Chunks)

/-! ## Claim theorems -/

/-- Claim C7: a successful exchange whose transport yields the chunks
`data: ...\"Hel\"...`, `data: ...\"lo\"...`, `data: [DONE]` before closing
leaves its turn with content `"Hello"`, `loading = false` and no error
(and the model's busy flag cleared). -/
theorem c7_hello_stream_scenario :
    c7Final.messages.find? (fun x => x.id == ("1-0")) =
      some { id := ("1-0"), role := .assistant, content := ("Hello"),
             model := some ("m"), targetModels := none, loading := false,
             error := none } ∧
    getLoadingFlag c7Final ("m") = false := by
  decide

/-- Claim C8: the pure derivations over model identifiers take the
documented values on the six sample identifiers. -/
theorem c8_provider_display_name :
    getProvider ("openai/gpt-4") = ("openai") ∧
    getProvider ("gpt-4") = ("openai") ∧
    getProvider ("claude-3-opus") = ("anthropic") ∧
    getProvider ("llama3:8b") = ("llama3") ∧
    getDisplayName ("openai/gpt-4") = ("gpt-4") ∧
    getDisplayName ("gpt-4") = ("gpt-4") := by
  decide

/-- Hitting the sentinel line discards everything after it in the current
chunk's line list. -/
lemma linesDeltas_done_cons (post : List String) :
    linesDeltas (("data: [DONE]") :: post) = [] := by
  have h1 : strStartsWith ("data: [DONE]") ("data: ") = true := by decide
  have h2 : strDrop ("data: [DONE]") 6 = ("[DONE]") := by decide
  simp [linesDeltas, h1, h2]

/-- Lines before a sentinel line are processed exactly as they would be
without it: the `break` drops only the suffix of the chunk. -/
lemma linesDeltas_append_done (pre post : List String)
    (hpre : ∀ l ∈ pre,
      ¬(strStartsWith l ("data: ") = true ∧ strDrop l 6 = ("[DONE]"))) :
    linesDeltas (pre ++ ("data: [DONE]") :: post) = linesDeltas pre := by
  induction pre with
  | nil => simpa using linesDeltas_done_cons post
  | cons l ls ih =>
    have hl := hpre l (List.mem_cons_self l ls)
    have hls : ∀ x ∈ ls,
        ¬(strStartsWith x ("data: ") = true ∧ strDrop x 6 = ("[DONE]")) :=
      fun x hx => hpre x (List.mem_cons_of_mem l hx)
    by_cases hs : strStartsWith l ("data: ") = true
    · have hd : ¬ strDrop l 6 = ("[DONE]") := fun h => hl ⟨hs, h⟩
      simp only [List.cons_append, linesDeltas, hs, if_true, if_neg hd]
      cases hE : extractDelta (strDrop l 6) with
      | none => exact ih hls
      | some d =>
        by_cases hde : d = ("")
        · simp only [hde, ne_eq, not_true_eq_false, if_false]
          exact ih hls
        · simp only [ne_eq, hde, not_false_eq_true, if_true]
          exact congrArg (fun t => d :: t) (ih hls)
    · simp only [List.cons_append, linesDeltas, Bool.not_eq_true] at hs ⊢
      simp only [hs, Bool.false_eq_true, if_false]
      exact ih hls

/-- The outer read loop is a homomorphism over the chunk sequence: earlier
chunks (sentinel or not) never stop the processing of later chunks. -/
lemma streamDeltas_append (cs1 cs2 : List String) :
    streamDeltas (cs1 ++ cs2) = streamDeltas cs1 ++ streamDeltas cs2 := by
  induction cs1 with
  | nil => simp [streamDeltas]
  | cons c cs ih => simp [streamDeltas, ih]

/-- Claim C4: a `[DONE]` payload stops processing of the remaining lines of
the same chunk only; the outer read loop keeps consuming chunks until the
transport itself reports end-of-stream, so deltas arriving in chunks after
a `[DONE]` chunk are still processed. -/
theorem c4_done_breaks_inner_loop_only (pre post cs1 cs2 : List String)
    (hpre : ∀ l ∈ pre,
      ¬(strStartsWith l ("data: ") = true ∧ strDrop l 6 = ("[DONE]"))) :
    linesDeltas (pre ++ ("data: [DONE]") :: post) = linesDeltas pre ∧
    streamDeltas (cs1 ++ cs2) = streamDeltas cs1 ++ streamDeltas cs2 :=
  ⟨linesDeltas_append_done pre post hpre, streamDeltas_append cs1 cs2⟩

/-- Claim C4, witness: a concrete chunk with a trailing junk line after the
sentinel, and a concrete two-chunk transport. -/
theorem c4_done_witness :
    linesDeltas ([("data: x")] ++ ("data: [DONE]") :: [("data: y")]) =
      linesDeltas [("data: x")] ∧
    streamDeltas ([("a")] ++ [("b")]) =
      streamDeltas [("a")] ++ streamDeltas [("b")] :=
  c4_done_breaks_inner_loop_only [("data: x")] [("data: y")] [("a")] [("b")]
    (by decide)

/-- On a well-formed turn the display predicate agrees pointwise with the
spec's worded selection rule. -/
lemma display_eq_spec (M : String) (m : ChatMessage)
    (hM : M ≠ ("")) (hwf : wfTurn m = true) :
    displayMatch M m = specMatch M m := by
  obtain ⟨mid, role, content, model, tms, loading, err⟩ := m
  have hM' : ("" : String) ≠ M := fun h => hM h.symm
  cases role with
  | assistant => rfl
  | user =>
    cases model with
    | none =>
      cases tms with
      | none => rfl
      | some ts => simp [displayMatch, specMatch, jsTruthyStr]
    | some s =>
      simp only [wfTurn] at hwf
      by_cases hs : s = ("")
      · subst hs
        rw [if_pos rfl] at hwf
        cases tms with
        | none => simp at hwf
        | some ts => simp [displayMatch, specMatch, jsTruthyStr, hM']
      · rw [if_neg hs] at hwf
        have htms : tms = none := by simpa using hwf
        subst htms
        simp [displayMatch, specMatch, jsTruthyStr, hs]

/-- On a well-formed turn the upstream-history predicate agrees pointwise
with the spec's worded rule plus the own-id exclusion. -/
lemma history_eq_spec (M : String) (target m : ChatMessage)
    (hM : M ≠ ("")) (htm : target.model = some M) (hwf : wfTurn m = true) :
    historyMatch target m = ((m.id != target.id) && specMatch M m) := by
  obtain ⟨mid, role, content, model, tms, loading, err⟩ := m
  have hM' : ("" : String) ≠ M := fun h => hM h.symm
  by_cases hid : mid = target.id
  · simp [historyMatch, hid]
  · have hidb : (mid == target.id) = false := by simpa using hid
    cases role with
    | assistant => simp [historyMatch, specMatch, hidb, htm, hid]
    | user =>
      cases model with
      | none =>
        cases tms with
        | none => simp [historyMatch, specMatch, hidb, jsTruthyStr, htm, hid]
        | some ts => simp [historyMatch, specMatch, hidb, jsTruthyStr, htm, hid]
      | some s =>
        simp only [wfTurn] at hwf
        by_cases hs : s = ("")
        · subst hs
          rw [if_pos rfl] at hwf
          cases tms with
          | none => simp at hwf
          | some ts =>
            have hbM : (("" : String) == M) = false := by simpa using hM'
            have hbne : (mid != target.id) = true := by simp [bne, hidb]
            simp [historyMatch, specMatch, hidb, jsTruthyStr, htm, hbM, hbne]
        · rw [if_neg hs] at hwf
          have htms : tms = none := by simpa using hwf
          subst htms
          simp [historyMatch, specMatch, hidb, jsTruthyStr, htm, hs, hid]

/-- Claim C1: on logs whose user turns are shaped the way `sendPrompt`
creates them (`wfTurn`) and for a non-degenerate model id, the display
projection selects exactly the turns satisfying the spec's rule
(`specMatch`), and the upstream-history filter for a placeholder targeting
that model selects by the identical rule with the single additional
exclusion of the placeholder's own id. -/
theorem c1_projection_rule (M : String) (target : ChatMessage)
    (msgs : List ChatMessage) (hM : M ≠ ("")) (htm : target.model = some M)
    (hwf : ∀ m ∈ msgs, wfTurn m = true) :
    getHistoryForModelDisplay msgs M = msgs.filter (specMatch M) ∧
    msgs.filter (historyMatch target) =
      msgs.filter (fun m => (m.id != target.id) && specMatch M m) := by
  constructor
  · exact List.filter_congr (fun m hm => display_eq_spec M m hM (hwf m hm))
  · exact List.filter_congr (fun m hm => history_eq_spec M target m hM htm (hwf m hm))

/-- Claim C1, witness: a concrete two-turn log and placeholder. -/
theorem c1_projection_witness :
    getHistoryForModelDisplay [c7User, c7Placeholder] ("m") =
      [c7User, c7Placeholder].filter (specMatch ("m")) ∧
    [c7User, c7Placeholder].filter (historyMatch c7Placeholder) =
      [c7User, c7Placeholder].filter
        (fun m => (m.id != c7Placeholder.id) && specMatch ("m") m) :=
  c1_projection_rule ("m") c7Placeholder [c7User, c7Placeholder]
    (by decide) (by decide) (by decide)

/-- Claim C10: the upstream history maps each selected turn to exactly its
role and content, and an assistant turn of the placeholder's model from an
earlier round is included whatever its `error` and `loading` fields hold —
its (possibly empty) content is transmitted. -/
theorem c10_history_role_content (msgs : List ChatMessage)
    (target m : ChatMessage) (hm : m ∈ msgs) (hrole : m.role = .assistant)
    (hmodel : m.model = target.model) (hid : m.id ≠ target.id) :
    (m.role, m.content) ∈ buildHistory msgs target ∧
    ∀ e ∈ buildHistory msgs target, ∃ m' ∈ msgs, e = (m'.role, m'.content) := by
  constructor
  · apply List.mem_map_of_mem
    refine List.mem_filter.2 ⟨hm, ?_⟩
    simp [historyMatch, hid, hrole, hmodel]
  · intro e he
    obtain ⟨m', hm', rfl⟩ := List.mem_map.1 he
    exact ⟨m', (List.mem_filter.1 hm').1, rfl⟩

/-- An assistant turn from an earlier round that errored out and is still
flagged loading: its empty content still goes upstream. -/
def c10Errored : ChatMessage :=
  { id := ("0-0"), role := .assistant, content := (""), model := some ("m"),
    loading := true, error := some ("Status: 500") }

/-- Claim C10, witness: the errored empty turn is carried into the request
history of a later placeholder of the same model. -/
theorem c10_history_witness :
    (c10Errored.role, c10Errored.content) ∈
      buildHistory [c10Errored, c7User, c7Placeholder] c7Placeholder ∧
    ∀ e ∈ buildHistory [c10Errored, c7User, c7Placeholder] c7Placeholder,
      ∃ m' ∈ [c10Errored, c7User, c7Placeholder], e = (m'.role, m'.content) :=
  c10_history_role_content [c10Errored, c7User, c7Placeholder] c7Placeholder
    c10Errored (by decide) (by decide) (by decide) (by decide)

/-- Claim C2: whenever the dispatcher accepts a submission (non-blank
prompt, at least one target), the state it hands to the streaming
exchanges is the old log plus exactly one user turn followed by exactly
one placeholder per target, each placeholder carrying `content = ""`,
`loading = true` and the target's model id — all created synchronously
before any network call can run (the exchanges only start from the
returned state). -/
theorem c2_dispatch_shape (st : AppState) (tid : Option String) (n1 n2 : Nat)
    (st' : AppState) (as : List ChatMessage)
    (h : sendPromptSync st tid n1 n2 = some (st', as)) :
    ∃ u : ChatMessage, u.role = .user ∧
      st'.messages = st.messages ++ u :: as ∧
      1 ≤ as.length ∧
      (∀ a ∈ as, a.role = .assistant ∧ a.content = ("") ∧
        a.loading = true ∧ a.error = none) ∧
      as.map (fun a => a.model) =
        (if jsTruthyStr tid then [tid] else st.selectedModels.map some) := by
  obtain ⟨hp, hact, hst', has⟩ := sendPromptSync_some h
  subst hst' has
  refine ⟨userMessageOf st tid n1, rfl, ?_, ?_, ?_, ?_⟩
  · simp [dispatchedState, List.append_assoc]
  · rw [placeholdersOf]
    rw [List.length_map, List.enum_length]
    rcases hone : activeModelsOf st tid with _ | ⟨s, ss⟩
    · rw [hone] at hact; simp at hact
    · simp
  · intro a ha
    rw [placeholdersOf] at ha
    obtain ⟨p, _, rfl⟩ := List.mem_map.1 ha
    exact ⟨rfl, rfl, rfl, rfl⟩
  · rw [placeholdersOf, List.map_map]
    have hcomp : (fun a => ChatMessage.model a) ∘
        (fun p : Nat × String =>
          ({ id := asstId n2 p.1, role := .assistant, content := (""),
             model := some p.2, targetModels := none, loading := true,
             error := none } : ChatMessage)) = (some ∘ Prod.snd) := rfl
    rw [hcomp, ← List.map_map, List.enum_map_snd]
    cases ht : jsTruthyStr tid with
    | false => simp [activeModelsOf, isGlobalOf, ht]
    | true =>
      rcases tid with _ | t
      · simp [jsTruthyStr] at ht
      · simp [activeModelsOf, isGlobalOf, ht]

/-- A state from which a concrete global dispatch is accepted. -/
def c2State : AppState :=
  { prompt := ("Hi"), modelPrompts := [], selectedModels := [("a"), ("b")],
    messages := [], isModelLoading := [] }

/-- The result of that concrete dispatch. -/
def c2Res : Option (AppState × List ChatMessage) :=
  sendPromptSync c2State none 3 4

/-- Its post-dispatch state. -/
def c2After : AppState :=
  match c2Res with
  | some (s, _) => s
  | none => c2State

/-- Its freshly created placeholders. -/
def c2Placeholders : List ChatMessage :=
  match c2Res with
  | some (_, a) => a
  | none => []

/-- Rewriting a turn by id preserves the log's length. -/
lemma modifyById_length (msgId : String) (f : ChatMessage → ChatMessage) :
    ∀ l : List ChatMessage, (modifyById msgId f l).length = l.length := by
  intro l
  induction l with
  | nil => rfl
  | cons m rest ih =>
    by_cases hm : (m.id == msgId) = true
    · simp [modifyById, hm]
    · simp only [modifyById, Bool.not_eq_true] at hm ⊢
      simp [hm, ih]

/-- Looking up the rewritten id finds the rewritten turn, provided the
rewrite preserves the id (all three handlers do). -/
lemma find?_modifyById (msgId : String) (f : ChatMessage → ChatMessage)
    (hf : ∀ m, (f m).id = m.id) :
    ∀ l : List ChatMessage,
      (modifyById msgId f l).find? (fun x => x.id == msgId) =
        (l.find? (fun x => x.id == msgId)).map f := by
  intro l
  induction l with
  | nil => rfl
  | cons m rest ih =>
    by_cases hm : (m.id == msgId) = true
    · have hfm : ((f m).id == msgId) = true := by rw [hf]; exact hm
      simp [modifyById, hm, List.find?_cons_of_pos, hfm]
    · have hm' : (m.id == msgId) = false := by simpa using hm
      simp only [modifyById, hm', Bool.false_eq_true, if_false]
      rw [List.find?_cons_of_neg _ (by simp [hm']),
          List.find?_cons_of_neg _ (by simp [hm']), ih]

/-- Two successive rewrites of the same id fuse, provided the first
preserves the id. -/
lemma modifyById_modifyById (msgId : String)
    (f g : ChatMessage → ChatMessage) (hf : ∀ m, (f m).id = m.id) :
    ∀ l : List ChatMessage,
      modifyById msgId g (modifyById msgId f l) =
        modifyById msgId (fun m => g (f m)) l := by
  intro l
  induction l with
  | nil => rfl
  | cons m rest ih =>
    by_cases hm : (m.id == msgId) = true
    · have hfm : ((f m).id == msgId) = true := by rw [hf]; exact hm
      simp [modifyById, hm, hfm]
    · have hm' : (m.id == msgId) = false := by simpa using hm
      simp [modifyById, hm', ih]

/-- Frame property: a rewrite by id leaves every position holding a
different id untouched. -/
lemma modifyById_getElem?_ne (msgId : String) (f : ChatMessage → ChatMessage) :
    ∀ (l : List ChatMessage) (i : Nat) (mi : ChatMessage),
      l[i]? = some mi → mi.id ≠ msgId →
      (modifyById msgId f l)[i]? = some mi := by
  intro l
  induction l with
  | nil => intro i mi h; simp at h
  | cons m rest ih =>
    intro i mi h hne
    cases i with
    | zero =>
      simp only [List.getElem?_cons_zero, Option.some.injEq] at h
      subst h
      have hm : (m.id == msgId) = false := by simpa using hne
      simp [modifyById, hm]
    | succ i =>
      simp only [List.getElem?_cons_succ] at h
      by_cases hm : (m.id == msgId) = true
      · simp only [modifyById, hm, if_true, List.getElem?_cons_succ]
        exact h
      · have hm' : (m.id == msgId) = false := by simpa using hm
        simp only [modifyById, hm', Bool.false_eq_true, if_false,
          List.getElem?_cons_succ]
        exact ih i mi h hne

/-- Overwriting bindings of key `k` does not affect a search for a
different key `k'`. -/
lemma find?_map_setkey_ne {α : Type} (k k' : String) (v : α)
    (hkk' : (k == k') = false) :
    ∀ l : List (String × α),
      List.find? (fun kv => kv.1 == k')
          (l.map (fun kv => if kv.1 == k then (k, v) else kv)) =
        List.find? (fun kv => kv.1 == k') l := by
  intro l
  induction l with
  | nil => rfl
  | cons kv rest ih =>
    by_cases hk : (kv.1 == k) = true
    · have hkey : kv.1 = k := by simpa using hk
      rw [List.map_cons, if_pos hk]
      rw [List.find?_cons, List.find?_cons]
      simp only [hkk', hkey]
      exact ih
    · have hk' : (kv.1 == k) = false := by simpa using hk
      rw [List.map_cons, if_neg (by simp [hk'])]
      rw [List.find?_cons, List.find?_cons]
      cases hp : (kv.1 == k') with
      | true => rfl
      | false => exact ih

/-- Appending a binding for key `k` does not affect a search for a
different key `k'`. -/
lemma find?_append_single_ne {α : Type} (k k' : String) (v : α)
    (hkk' : (k == k') = false) :
    ∀ l : List (String × α),
      List.find? (fun kv => kv.1 == k') (l ++ [(k, v)]) =
        List.find? (fun kv => kv.1 == k') l := by
  intro l
  induction l with
  | nil => simp [List.find?_cons, hkk']
  | cons kv rest ih =>
    rw [List.cons_append, List.find?_cons, List.find?_cons]
    cases hp : (kv.1 == k') with
    | true => rfl
    | false => exact ih

/-- Assigning one key of a string-keyed record leaves every other key's
lookup unchanged. -/
lemma lookupD_setKV_ne {α : Type} (l : List (String × α)) (k k' : String)
    (v : α) (d : α) (hne : k' ≠ k) :
    lookupD (setKV l k v) k' d = lookupD l k' d := by
  have hkk' : (k == k') = false := by
    simpa using fun h => hne h.symm
  unfold setKV
  split
  · unfold lookupD
    rw [find?_map_setkey_ne k k' v hkk' l]
  · unfold lookupD
    rw [find?_append_single_ne k k' v hkk' l]

/-- When some binding for `k` exists, overwriting makes the first match
`(k, v)`. -/
lemma find?_map_setkey_same {α : Type} (k : String) (v : α) :
    ∀ l : List (String × α), l.any (fun kv => kv.1 == k) = true →
      List.find? (fun kv => kv.1 == k)
          (l.map (fun kv => if kv.1 == k then (k, v) else kv)) =
        some (k, v) := by
  intro l
  induction l with
  | nil => intro h; simp at h
  | cons kv rest ih =>
    intro hany
    by_cases hk : (kv.1 == k) = true
    · rw [List.map_cons, if_pos hk]
      simp [List.find?_cons]
    · have hk' : (kv.1 == k) = false := by simpa using hk
      rw [List.map_cons, if_neg (by simp [hk']), List.find?_cons]
      simp only [hk']
      apply ih
      simpa [hk'] using hany

/-- Assigning a key of a string-keyed record makes its lookup return the
assigned value. -/
lemma lookupD_setKV_same {α : Type} (l : List (String × α)) (k : String)
    (v : α) (d : α) :
    lookupD (setKV l k v) k d = v := by
  unfold setKV
  split
  · rename_i hany
    unfold lookupD
    rw [find?_map_setkey_same k v l hany]
  · rename_i hany
    have hnone : l.find? (fun kv => kv.1 == k) = none := by
      apply List.find?_eq_none.2
      intro kv hkv hp
      exact hany (List.any_eq_true.2 ⟨kv, hkv, hp⟩)
    unfold lookupD
    rw [List.find?_append, hnone]
    simp [List.find?_cons]

/-- What the `finally` handler does when the placeholder's model is
truthy: clear the turn's `loading`, then store the recomputed busy value
under the model's key. -/
lemma finalizeExchange_spec (st : AppState) (i : String) (M : String)
    (hne : M ≠ ("")) :
    (finalizeExchange st i (some M)).messages =
      modifyById i (fun m => { m with loading := false }) st.messages ∧
    (finalizeExchange st i (some M)).isModelLoading =
      setKV st.isModelLoading M
        ((modifyById i (fun m => { m with loading := false }) st.messages).any
          (fun m => m.model == some M && m.loading)) := by
  have ht : jsTruthyStr (some M) = true := by simp [jsTruthyStr, hne]
  constructor
  · simp [finalizeExchange, ht]
  · simp [finalizeExchange, ht]

/-- Core of the C6 argument, shared by all three exit paths. -/
lemma finalize_busy_core (stMid : AppState) (i : String) (M : String)
    (hne : M ≠ ("")) :
    (∀ m, (finalizeExchange stMid i (some M)).messages.find?
        (fun x => x.id == i) = some m → m.loading = false) ∧
    (getLoadingFlag (finalizeExchange stMid i (some M)) M = true ↔
      ∃ m ∈ (finalizeExchange stMid i (some M)).messages,
        m.model = some M ∧ m.loading = true) := by
  obtain ⟨hmsgs, hflags⟩ := finalizeExchange_spec stMid i M hne
  constructor
  · intro m hm
    rw [hmsgs, find?_modifyById i (fun m => { m with loading := false })
      (fun _ => rfl)] at hm
    cases hfind : stMid.messages.find? (fun x => x.id == i) with
    | none => rw [hfind] at hm; simp at hm
    | some m0 =>
      rw [hfind] at hm
      simp only [Option.map_some', Option.some.injEq] at hm
      subst hm
      rfl
  · rw [getLoadingFlag, hflags, lookupD_setKV_same, hmsgs]
    rw [List.any_eq_true]
    constructor
    · rintro ⟨m, hm, hp⟩
      rw [Bool.and_eq_true] at hp
      exact ⟨m, hm, eq_of_beq hp.1, hp.2⟩
    · rintro ⟨m, hm, h1, h2⟩
      exact ⟨m, hm, by simp [h1, h2]⟩

/-- Claim C6: whatever way an exchange exits — transport failure before
streaming, clean end-of-stream, or a read/decode exception after some
chunks — the `finally` step leaves the exchange's turn with
`loading = false` and stores the model's busy flag as true exactly when
some turn of that model is still loading in the resulting log. -/
theorem c6_finally_recomputes_busy (st : AppState) (msg : ChatMessage)
    (oc : ExchangeOutcome) (M : String) (hM : msg.model = some M)
    (hne : M ≠ ("")) :
    (∀ m, (runExchange st msg oc).messages.find?
        (fun x => x.id == msg.id) = some m → m.loading = false) ∧
    (getLoadingFlag (runExchange st msg oc) M = true ↔
      ∃ m ∈ (runExchange st msg oc).messages,
        m.model = some M ∧ m.loading = true) := by
  cases oc with
  | httpError e =>
    have hrew : runExchange st msg (.httpError e) =
        finalizeExchange { st with messages := applyError st.messages msg.id e }
          msg.id (some M) := by
      rw [← hM]
      rfl
    rw [hrew]
    exact finalize_busy_core _ msg.id M hne
  | stream chunks =>
    have hrew : runExchange st msg (.stream chunks) =
        finalizeExchange
          { st with messages := applyDeltas st.messages msg.id (streamDeltas chunks) }
          msg.id (some M) := by
      rw [← hM]
      rfl
    rw [hrew]
    exact finalize_busy_core _ msg.id M hne
  | streamThen chunks e =>
    have hrew : runExchange st msg (.streamThen chunks e) =
        finalizeExchange
          { st with messages :=
              applyError (applyDeltas st.messages msg.id (streamDeltas chunks)) msg.id e }
          msg.id (some M) := by
      rw [← hM]
      rfl
    rw [hrew]
    exact finalize_busy_core _ msg.id M hne

/-- Claim C6, witness: the concrete C7 fixture run through the failing
outcome. -/
theorem c6_finally_witness :
    (∀ m, (runExchange c7State c7Placeholder (.httpError ("boom"))).messages.find?
        (fun x => x.id == c7Placeholder.id) = some m → m.loading = false) ∧
    (getLoadingFlag (runExchange c7State c7Placeholder (.httpError ("boom"))) ("m") = true ↔
      ∃ m ∈ (runExchange c7State c7Placeholder (.httpError ("boom"))).messages,
        m.model = some ("m") ∧ m.loading = true) :=
  c6_finally_recomputes_busy c7State c7Placeholder (.httpError ("boom")) ("m")
    (by decide) (by decide)

/-- Claim C3: a transport failure (non-success status or missing body
reader) sets the failing exchange's turn to `error = message`,
`loading = false`, with its content untouched (still `""` for a fresh
placeholder), and modifies no other turn and no other model's busy flag —
whatever states sibling exchanges have interleaved into `st`. -/
theorem c3_http_error_local (st : AppState) (msg : ChatMessage) (e : String)
    (m0 : ChatMessage)
    (hfind : st.messages.find? (fun x => x.id == msg.id) = some m0)
    (hc : m0.content = ("")) :
    (runExchange st msg (.httpError e)).messages.find?
        (fun x => x.id == msg.id) =
      some { m0 with content := (""), error := some e, loading := false } ∧
    (runExchange st msg (.httpError e)).messages.length =
      st.messages.length ∧
    (∀ (i : Nat) (mi : ChatMessage), st.messages[i]? = some mi →
      mi.id ≠ msg.id →
      (runExchange st msg (.httpError e)).messages[i]? = some mi) ∧
    (∀ M', msg.model ≠ some M' →
      getLoadingFlag (runExchange st msg (.httpError e)) M' =
        getLoadingFlag st M') := by
  have hrec : ({ m0 with content := (""), error := some e, loading := false } :
      ChatMessage) = { m0 with error := some e, loading := false } := by
    rw [← hc]
  have hmsgs : (runExchange st msg (.httpError e)).messages =
      modifyById msg.id
        (fun m => { m with error := some e, loading := false }) st.messages := by
    show (finalizeExchange
        { st with messages := applyError st.messages msg.id e }
        msg.id msg.model).messages = _
    cases hmod : msg.model with
    | none =>
      simp only [finalizeExchange, hmod, jsTruthyStr]
      rw [applyError, modifyById_modifyById msg.id
        (fun m => { m with error := some e, loading := false })
        (fun m => { m with loading := false }) (fun _ => rfl)]
      rfl
    | some mdl =>
      by_cases hmdl : mdl = ("")
      · subst hmdl
        have ht : jsTruthyStr (some ("")) = false := by decide
        simp only [finalizeExchange, ht, Bool.false_eq_true, if_false]
        rw [applyError, modifyById_modifyById msg.id
          (fun m => { m with error := some e, loading := false })
          (fun m => { m with loading := false }) (fun _ => rfl)]
      · have ht : jsTruthyStr (some mdl) = true := by simp [jsTruthyStr, hmdl]
        simp only [finalizeExchange, ht, if_true]
        rw [applyError, modifyById_modifyById msg.id
          (fun m => { m with error := some e, loading := false })
          (fun m => { m with loading := false }) (fun _ => rfl)]
  refine ⟨?_, ?_, ?_, ?_⟩
  · rw [hmsgs, find?_modifyById msg.id
      (fun m => { m with error := some e, loading := false })
      (fun _ => rfl), hfind, hrec]
    rfl
  · rw [hmsgs, modifyById_length]
  · intro i mi hi hne
    rw [hmsgs]
    exact modifyById_getElem?_ne msg.id
      (fun m => { m with error := some e, loading := false })
      st.messages i mi hi hne
  · intro M' hne
    show getLoadingFlag (finalizeExchange
        { st with messages := applyError st.messages msg.id e }
        msg.id msg.model) M' = _
    cases hmod : msg.model with
    | none => simp [finalizeExchange, jsTruthyStr, getLoadingFlag]
    | some mdl =>
      by_cases hmdl : mdl = ("")
      · subst hmdl
        simp [finalizeExchange, jsTruthyStr, getLoadingFlag]
      · have ht : jsTruthyStr (some mdl) = true := by simp [jsTruthyStr, hmdl]
        have hMne : M' ≠ mdl := by
          intro hEq
          exact hne (by rw [hmod, hEq])
        simp only [finalizeExchange, ht, if_true, getLoadingFlag]
        exact lookupD_setKV_ne _ mdl M' _ false hMne

/-- Claim C3, witness: the concrete fixture, its user turn at index 0 and
an unrelated model's flag. -/
theorem c3_http_error_witness :
    (runExchange c7State c7Placeholder (.httpError ("Status: 500"))).messages.find?
        (fun x => x.id == c7Placeholder.id) =
      some { c7Placeholder with
              content := ("")
              error := some ("Status: 500")
              loading := false } ∧
    (runExchange c7State c7Placeholder (.httpError ("Status: 500"))).messages[0]? =
      some c7User ∧
    getLoadingFlag (runExchange c7State c7Placeholder (.httpError ("Status: 500")))
        ("x") = getLoadingFlag c7State ("x") := by
  have h := c3_http_error_local c7State c7Placeholder ("Status: 500")
    c7Placeholder (by decide) (by decide)
  exact ⟨h.1, h.2.2.1 0 c7User (by decide) (by decide),
    h.2.2.2 ("x") (by decide)⟩

/-- Claim C2, witness: the concrete two-target dispatch. -/
theorem c2_dispatch_witness :
    ∃ u : ChatMessage, u.role = .user ∧
      c2After.messages = c2State.messages ++ u :: c2Placeholders ∧
      1 ≤ c2Placeholders.length ∧
      (∀ a ∈ c2Placeholders, a.role = .assistant ∧ a.content = ("") ∧
        a.loading = true ∧ a.error = none) ∧
      c2Placeholders.map (fun a => a.model) =
        (if jsTruthyStr none then [none] else c2State.selectedModels.map some) :=
  c2_dispatch_shape c2State none 3 4 c2After c2Placeholders (by decide)

/-- The handler `toggleModel` only reassigns the selection array; the conversation log
is untouched, whichever branch runs. -/
lemma toggleModel_messages (st : AppState) (m : String) :
    (toggleModel st m).messages = st.messages := by
  by_cases hc : m ∈ st.selectedModels <;> simp [toggleModel, hc]

/-- Any sequence of selection toggles leaves the conversation log
untouched. -/
lemma foldl_toggleModel_messages (toggles : List String) :
    ∀ st : AppState, (toggles.foldl toggleModel st).messages = st.messages := by
  induction toggles with
  | nil => intro st; rfl
  | cons t ts ih =>
    intro st
    rw [List.foldl_cons, ih (toggleModel st t), toggleModel_messages]

/-- Claim C5: a global dispatch stores a copy of the dispatch-time
selection as the user turn's `targetModels`; any later sequence of
`toggleModel` calls leaves the log — and hence that turn — unchanged, so
the turn stays visible in the display projection of every model that was
selected at dispatch time. -/
theorem c5_target_models_snapshot (st : AppState) (n1 n2 : Nat)
    (st' : AppState) (as : List ChatMessage) (A : String)
    (toggles : List String)
    (h : sendPromptSync st none n1 n2 = some (st', as))
    (hA : A ∈ st.selectedModels) :
    (userMessageOf st none n1).targetModels = some st.selectedModels ∧
    (toggles.foldl toggleModel st').messages = st'.messages ∧
    userMessageOf st none n1 ∈ (toggles.foldl toggleModel st').messages ∧
    userMessageOf st none n1 ∈
      getHistoryForModelDisplay (toggles.foldl toggleModel st').messages A := by
  obtain ⟨hp, hact, hst', has⟩ := sendPromptSync_some h
  subst hst'
  have hmem : userMessageOf st none n1 ∈
      (toggles.foldl toggleModel (dispatchedState st none n1 n2)).messages := by
    rw [foldl_toggleModel_messages]
    show userMessageOf st none n1 ∈
      st.messages ++ [userMessageOf st none n1] ++ placeholdersOf st none n2
    simp
  refine ⟨rfl, foldl_toggleModel_messages toggles _, hmem, ?_⟩
  refine List.mem_filter.2 ⟨hmem, ?_⟩
  have hc : st.selectedModels.contains A = true :=
    List.elem_eq_true_of_mem hA
  simp [displayMatch, userMessageOf, jsTruthyStr, isGlobalOf, hc, hA]

/-- Claim C5, witness: a dispatch with selection `[a, b]` followed by
toggling `a` off and `c` on. -/
theorem c5_snapshot_witness :
    (userMessageOf c2State none 3).targetModels = some c2State.selectedModels ∧
    ([("a"), ("c")].foldl toggleModel c2After).messages = c2After.messages ∧
    userMessageOf c2State none 3 ∈
      ([("a"), ("c")].foldl toggleModel c2After).messages ∧
    userMessageOf c2State none 3 ∈
      getHistoryForModelDisplay
        ([("a"), ("c")].foldl toggleModel c2After).messages ("a") :=
  c5_target_models_snapshot c2State 3 4 c2After c2Placeholders ("a")
    [("a"), ("c")] (by decide) (by decide)

/-! ## Decimal representations: the facts needed to reason about the
`Date.now()`-derived ids -/

/-- Numeric value of a digit character. -/
def dval (c : Char) : Nat :=
  c.toNat - 48

/-- Value of a most-significant-first digit string. -/
def digitsVal (l : List Char) : Nat :=
  l.foldl (fun a c => a * 10 + dval c) 0

/-- Reference (non-accumulator) decimal digit list of a natural. -/
def digitsRec (n : Nat) : List Char :=
  if _h : n < 10 then [natDigitChar n]
  else digitsRec (n / 10) ++ [natDigitChar (n % 10)]
termination_by n
decreasing_by exact Nat.div_lt_self (by omega) (by omega)

/-- A digit character decodes back to its digit. -/
lemma natDigitChar_dval (d : Nat) (hd : d < 10) : dval (natDigitChar d) = d := by
  interval_cases d <;> decide

/-- Digit characters are never the dash. -/
lemma natDigitChar_ne_dash (d : Nat) (hd : d < 10) : natDigitChar d ≠ ('-') := by
  interval_cases d <;> decide

/-- Peeling the least significant digit off a value computation. -/
lemma digitsVal_append_single (l : List Char) (c : Char) :
    digitsVal (l ++ [c]) = digitsVal l * 10 + dval c := by
  simp [digitsVal, List.foldl_append]

/-- The reference digit list decodes to the number it was built from. -/
lemma digitsVal_digitsRec (n : Nat) : digitsVal (digitsRec n) = n := by
  induction n using Nat.strong_induction_on with
  | _ n ih =>
    rw [digitsRec]
    split
    · rename_i h
      show digitsVal [natDigitChar n] = n
      rw [digitsVal, List.foldl_cons, List.foldl_nil, Nat.zero_mul,
        Nat.zero_add, natDigitChar_dval n h]
    · rename_i h
      rw [digitsVal_append_single,
        ih (n / 10) (Nat.div_lt_self (by omega) (by omega)),
        natDigitChar_dval (n % 10) (Nat.mod_lt _ (by omega))]
      omega

/-- Decimal digit lists are unique. -/
lemma digitsRec_injective (a b : Nat) (h : digitsRec a = digitsRec b) :
    a = b := by
  rw [← digitsVal_digitsRec a, ← digitsVal_digitsRec b, h]

/-- Every character of the reference digit list is a digit character. -/
lemma digitsRec_chars (n : Nat) :
    ∀ c ∈ digitsRec n, ∃ d, d < 10 ∧ c = natDigitChar d := by
  induction n using Nat.strong_induction_on with
  | _ n ih =>
    rw [digitsRec]
    split
    · rename_i h
      intro c hc
      simp only [List.mem_singleton] at hc
      exact ⟨n, h, hc⟩
    · rename_i h
      intro c hc
      rw [List.mem_append] at hc
      rcases hc with hc | hc
      · exact ih (n / 10) (Nat.div_lt_self (by omega) (by omega)) c hc
      · simp only [List.mem_singleton] at hc
        exact ⟨n % 10, Nat.mod_lt _ (by omega), hc⟩

/-- The dash never appears in a decimal digit list. -/
lemma digitsRec_no_dash (n : Nat) : ('-') ∉ digitsRec n := by
  intro hmem
  obtain ⟨d, hd, hc⟩ := digitsRec_chars n _ hmem
  exact natDigitChar_ne_dash d hd hc.symm

/-- The fuel-driven accumulator printer computes the reference digits. -/
lemma natToStringAux_eq (fuel : Nat) :
    ∀ (n : Nat) (acc : List Char), n < 10 ^ fuel → 0 < fuel →
      natToStringAux fuel n acc = digitsRec n ++ acc := by
  induction fuel with
  | zero => intro n acc _ hf; omega
  | succ fuel ih =>
    intro n acc hlt _
    show (if n / 10 = 0 then natDigitChar (n % 10) :: acc
      else natToStringAux fuel (n / 10) (natDigitChar (n % 10) :: acc)) =
      digitsRec n ++ acc
    by_cases h0 : n / 10 = 0
    · rw [if_pos h0]
      have hn : n < 10 := by omega
      rw [digitsRec, dif_pos hn, Nat.mod_eq_of_lt hn]
      rfl
    · rw [if_neg h0]
      have hge : ¬ n < 10 := by omega
      have hfuel : 0 < fuel := by
        rcases fuel with _ | fuel
        · have h10 : (10 : Nat) ^ (0 + 1) = 10 := by norm_num
          rw [h10] at hlt
          omega
        · omega
      have hdiv : n / 10 < 10 ^ fuel := by
        have hmul : n < 10 ^ fuel * 10 := by
          rw [← pow_succ]
          exact hlt
        exact (Nat.div_lt_iff_lt_mul (by omega)).2 hmul
      rw [ih (n / 10) (natDigitChar (n % 10) :: acc) hdiv hfuel]
      conv_rhs => rw [digitsRec]
      rw [dif_neg hge]
      simp

/-- The characters of `natToString n` are the reference decimal digits. -/
lemma natToString_data (n : Nat) : (natToString n).data = digitsRec n := by
  show (String.mk (natToStringAux (n + 1) n [])).data = digitsRec n
  have hb : n < 10 ^ (n + 1) := by
    calc n < 10 ^ n := Nat.lt_pow_self (by norm_num) n
    _ ≤ 10 ^ (n + 1) := Nat.pow_le_pow_right (by norm_num) (Nat.le_succ n)
  rw [natToStringAux_eq (n + 1) n [] hb (by omega), List.append_nil]

/-- The decimal printer is injective (two different clock readings print
differently). -/
lemma natToString_injective (a b : Nat) (h : natToString a = natToString b) :
    a = b := by
  apply digitsRec_injective
  rw [← natToString_data, ← natToString_data, h]

/-- The dash never appears in a printed natural. -/
lemma natToString_no_dash (n : Nat) : ('-') ∉ (natToString n).data := by
  rw [natToString_data]
  exact digitsRec_no_dash n

/-- The characters of a placeholder id: digits, a dash, digits. -/
lemma asstId_data (t i : Nat) :
    (asstId t i).data = digitsRec t ++ ('-') :: digitsRec i := by
  show (natToString t).data ++
      ((("-") : String).data ++ (natToString i).data) =
    digitsRec t ++ ('-') :: digitsRec i
  rw [natToString_data, natToString_data]
  rfl

/-- A printed clock value is never a placeholder id (no dash). -/
lemma natToString_ne_asstId (a t i : Nat) : natToString a ≠ asstId t i := by
  intro h
  have hd : (natToString a).data = (asstId t i).data := by rw [h]
  rw [natToString_data, asstId_data] at hd
  have : ('-') ∈ digitsRec a := by
    rw [hd]
    exact List.mem_append_right _ (List.mem_cons_self _ _)
  exact digitsRec_no_dash a this

/-- Splitting two dash-separated strings whose heads are dash-free. -/
lemma append_dash_inj (d1 : List Char) :
    ∀ (d2 e1 e2 : List Char), ('-') ∉ d1 → ('-') ∉ d2 →
      d1 ++ ('-') :: e1 = d2 ++ ('-') :: e2 → d1 = d2 ∧ e1 = e2 := by
  induction d1 with
  | nil =>
    intro d2 e1 e2 _ h2 h
    cases d2 with
    | nil => simpa using h
    | cons c d2' =>
      rw [List.nil_append, List.cons_append] at h
      injection h with hc _
      exact absurd (hc ▸ List.mem_cons_self c d2') h2
  | cons c d1' ih =>
    intro d2 e1 e2 h1 h2 h
    cases d2 with
    | nil =>
      rw [List.cons_append, List.nil_append] at h
      injection h with hc _
      exact absurd (hc ▸ List.mem_cons_self c d1') h1
    | cons c2 d2' =>
      rw [List.cons_append, List.cons_append] at h
      injection h with hc htail
      have h1' : ('-') ∉ d1' := fun hm => h1 (List.mem_cons_of_mem c hm)
      have h2' : ('-') ∉ d2' := fun hm => h2 (List.mem_cons_of_mem c2 hm)
      obtain ⟨hd, he⟩ := ih d2' e1 e2 h1' h2' htail
      exact ⟨by rw [hc, hd], he⟩

/-- Placeholder ids determine both clock reading and index. -/
lemma asstId_inj (t i u j : Nat) (h : asstId t i = asstId u j) :
    t = u ∧ i = j := by
  have hd : (asstId t i).data = (asstId u j).data := by rw [h]
  rw [asstId_data, asstId_data] at hd
  obtain ⟨h1, h2⟩ :=
    append_dash_inj (digitsRec t) (digitsRec u) (digitsRec i) (digitsRec j)
      (digitsRec_no_dash t) (digitsRec_no_dash u) hd
  exact ⟨digitsRec_injective _ _ h1, digitsRec_injective _ _ h2⟩

/-- The ids of a dispatch's placeholders are the indexed ids over the
active-model positions. -/
lemma placeholdersOf_ids (st : AppState) (tid : Option String) (n2 : Nat) :
    (placeholdersOf st tid n2).map (fun a => a.id) =
      (List.range (activeModelsOf st tid).length).map (fun i => asstId n2 i) := by
  rw [placeholdersOf, List.map_map]
  have hcomp : ((fun a => ChatMessage.id a) ∘
      (fun p : Nat × String =>
        ({ id := asstId n2 p.1, role := .assistant, content := (""),
           model := some p.2, targetModels := none, loading := true,
           error := none } : ChatMessage))) =
      ((fun i => asstId n2 i) ∘ Prod.fst) := rfl
  rw [hcomp, ← List.map_map, List.enum_map_fst]

/-- The ids created by one dispatch are pairwise distinct. -/
lemma dispatch_ids_nodup (n1 n2 k : Nat) :
    (natToString n1 :: (List.range k).map (fun i => asstId n2 i)).Nodup := by
  rw [List.nodup_cons]
  constructor
  · intro hmem
    obtain ⟨i, _, hi⟩ := List.mem_map.1 hmem
    exact natToString_ne_asstId n1 n2 i hi.symm
  · refine List.Nodup.map ?_ (List.nodup_range k)
    intro i j hij
    exact (asstId_inj n2 i n2 j hij).2

/-! ## C9 fixtures: two dispatches in the same millisecond -/

/-- Initial state of the C9 scenario. -/
def c9State0 : AppState :=
  { prompt := ("hi"), modelPrompts := [], selectedModels := [("m")],
    messages := [], isModelLoading := [] }

/-- After the first dispatch (both clock readings `7`), with the prompt
typed again. -/
def c9State1 : AppState :=
  match sendPromptSync c9State0 none 7 7 with
  | some (s, _) => { s with prompt := ("hi again") }
  | none => c9State0

/-- After the second dispatch in the same millisecond (readings `7`
again). -/
def c9State2 : AppState :=
  match sendPromptSync c9State1 none 7 7 with
  | some (s, _) => s
  | none => c9State1

/-- Claim C9, counterexample: two dispatches whose `Date.now()` readings
coincide (same millisecond) append four turns whose ids are NOT pairwise
distinct — the user ids are both `"7"` and the placeholder ids are both
`"7-0"`. -/
theorem c9_duplicate_ids_counterexample :
    c9State2.messages.length = 4 ∧
    ¬ (c9State2.messages.map (fun m => m.id)).Nodup := by
  decide

/-- Claim C9 as amended: within one dispatch the user turn id and all
placeholder ids are pairwise distinct, and the ids of two dispatches are
pairwise distinct provided the first clock readings differ and the second
clock readings differ; only dispatches observing the same `Date.now()`
value can collide. -/
theorem c9_ids_distinct_under_distinct_clocks
    (stA : AppState) (tidA : Option String) (n1 n2 : Nat) (stA' : AppState)
    (asA : List ChatMessage)
    (stB : AppState) (tidB : Option String) (n3 n4 : Nat) (stB' : AppState)
    (asB : List ChatMessage)
    (hA : sendPromptSync stA tidA n1 n2 = some (stA', asA))
    (hB : sendPromptSync stB tidB n3 n4 = some (stB', asB))
    (h13 : n1 ≠ n3) (h24 : n2 ≠ n4) :
    ((natToString n1 :: asA.map (fun a => a.id)) ++
      (natToString n3 :: asB.map (fun a => a.id))).Nodup := by
  obtain ⟨_, _, _, hasA⟩ := sendPromptSync_some hA
  obtain ⟨_, _, _, hasB⟩ := sendPromptSync_some hB
  subst hasA hasB
  rw [placeholdersOf_ids, placeholdersOf_ids]
  rw [List.nodup_append]
  refine ⟨dispatch_ids_nodup n1 n2 _, dispatch_ids_nodup n3 n4 _, ?_⟩
  intro x hx1 hx2
  rcases List.mem_cons.1 hx1 with hx1 | hx1 <;>
    rcases List.mem_cons.1 hx2 with hx2 | hx2
  · exact h13 (natToString_injective n1 n3 (hx1 ▸ hx2))
  · obtain ⟨j, _, hj⟩ := List.mem_map.1 hx2
    exact natToString_ne_asstId n1 n4 j (hx1 ▸ hj.symm)
  · obtain ⟨i, _, hi⟩ := List.mem_map.1 hx1
    exact natToString_ne_asstId n3 n2 i (hx2 ▸ hi.symm)
  · obtain ⟨i, _, hi⟩ := List.mem_map.1 hx1
    obtain ⟨j, _, hj⟩ := List.mem_map.1 hx2
    exact h24 (asstId_inj n2 i n4 j (hi.trans hj.symm)).1

/-- The placeholders of the witness dispatch at clocks 7/7. -/
def c9wAs1 : List ChatMessage :=
  match sendPromptSync c9State0 none 7 7 with
  | some (_, a) => a
  | none => []

/-- The state of the witness dispatch at clocks 7/7. -/
def c9wSt1 : AppState :=
  match sendPromptSync c9State0 none 7 7 with
  | some (s, _) => s
  | none => c9State0

/-- The placeholders of the witness dispatch at clocks 9/9. -/
def c9wAs2 : List ChatMessage :=
  match sendPromptSync c9State0 none 9 9 with
  | some (_, a) => a
  | none => []

/-- The state of the witness dispatch at clocks 9/9. -/
def c9wSt2 : AppState :=
  match sendPromptSync c9State0 none 9 9 with
  | some (s, _) => s
  | none => c9State0

/-- Claim C9 (amended), witness: two concrete dispatches at distinct
clock readings produce pairwise distinct ids. -/
theorem c9_ids_distinct_witness :
    ((natToString 7 :: c9wAs1.map (fun a => a.id)) ++
      (natToString 9 :: c9wAs2.map (fun a => a.id))).Nodup :=
  c9_ids_distinct_under_distinct_clocks c9State0 none 7 7 c9wSt1 c9wAs1
    c9State0 none 9 9 c9wSt2 c9wAs2 (by decide) (by decide)
    (by decide) (by decide)

end MultiWriter
